import Mathlib

set_option maxRecDepth 100000

/-!
Shallow embedding of `mindsdb/interfaces/skills/sql_agent.py` (class `SQLAgent`
plus its local helpers) and proofs about the claims of the specification.

Conventions used throughout:
* Machine-level behaviour of Python is made explicit: 32-bit arithmetic in the
  SHA-256 model is `Nat` arithmetic followed by `% 4294967296`; fallible Python
  code (statements that can raise) is modelled with `Except String`, the string
  being the (approximate) text of the raised exception.
* External collaborators (the SQL parser, the command executor, the pandas
  `describe` renderer) are parameters of the modelled functions; their contracts
  are the ones of section 6 of the specification.
* The external cache object is a plain key/value association list that is
  threaded explicitly through the functions that use it (in the source it is
  the `self._cache` attribute holding an object with `get`/`set`).
-/

/- ---------------------------------------------------------------------------
Python string primitives
--------------------------------------------------------------------------- -/

/-- Python `s.strip(chars)`: remove leading and trailing characters that are
members of `chars`. -/
def pyStrip (chars : List Char) (s : String) : String :=
  String.mk (((s.data.dropWhile (fun c => chars.contains c)).reverse.dropWhile
    (fun c => chars.contains c)).reverse)

/-- Lowercasing, character by character (Python `str.lower` restricted to the
ASCII identifiers that occur in table names). -/
def lowerStr (s : String) : String :=
  String.mk (s.data.map Char.toLower)

/-- Splitting a character list on the dot character, Python `s.split(".")`. -/
def splitDotGo : List Char → List Char → List String
  | [], acc => [String.mk acc.reverse]
  | c :: cs, acc =>
    if c = '.' then String.mk acc.reverse :: splitDotGo cs []
    else splitDotGo cs (c :: acc)

def splitDot (s : String) : List String :=
  splitDotGo s.data []

/- ---------------------------------------------------------------------------
SHA-256 (hashlib.sha256(...).hexdigest() in `_generate_cache_key`)
--------------------------------------------------------------------------- -/

def M32 : Nat := 4294967296

/-- Right rotation of a 32-bit word. -/
def rotr32 (b n : Nat) : Nat :=
  ((n >>> b) ||| ((n <<< (32 - b)) % M32)) % M32

/-- UTF-8 encoding of one code point (Python `str.encode()`). -/
def utf8EncodeCharNat (n : Nat) : List Nat :=
  if n < 128 then [n]
  else if n < 2048 then [192 ||| (n >>> 6), 128 ||| (n &&& 63)]
  else if n < 65536 then
    [224 ||| (n >>> 12), 128 ||| ((n >>> 6) &&& 63), 128 ||| (n &&& 63)]
  else
    [240 ||| (n >>> 18), 128 ||| ((n >>> 12) &&& 63),
     128 ||| ((n >>> 6) &&& 63), 128 ||| (n &&& 63)]

def utf8Bytes (s : String) : List Nat :=
  s.data.flatMap (fun c => utf8EncodeCharNat c.toNat)

/-- SHA-256 message padding: append 0x80, zeros, and the 64-bit big-endian bit
length, reaching a multiple of 64 bytes. -/
def sha256Pad (msg : List Nat) : List Nat :=
  let L := msg.length
  let bitLen := 8 * L
  let k := (64 - ((L + 9) % 64)) % 64
  msg ++ [128] ++ List.replicate k 0
      ++ (List.range 8).map (fun i => (bitLen >>> (56 - 8 * i)) % 256)

/-- Fueled chunking (structural recursion so that the kernel can evaluate it);
`fuel = l.length` is always enough for `n > 0`. -/
def chunksGo (n : Nat) : Nat → List α → List (List α)
  | _, [] => []
  | 0, _ => []
  | fuel + 1, x :: xs => ((x :: xs).take n) :: chunksGo n fuel ((x :: xs).drop n)

def chunksOf (n : Nat) (l : List α) : List (List α) :=
  chunksGo n l.length l

/-- Big-endian assembly of one 32-bit word from four bytes. -/
def word4 (l : List Nat) : Nat :=
  l.foldl (fun a b => a * 256 + b) 0

/-- Message-schedule extension from 16 to 64 words. -/
def sha256Schedule (w16 : List Nat) : List Nat :=
  (List.range 48).foldl (fun w _ =>
    let n := w.length
    let x15 := w.getD (n - 15) 0
    let x2 := w.getD (n - 2) 0
    let s0 := (rotr32 7 x15) ^^^ (rotr32 18 x15) ^^^ (x15 >>> 3)
    let s1 := (rotr32 17 x2) ^^^ (rotr32 19 x2) ^^^ (x2 >>> 10)
    w ++ [(w.getD (n - 16) 0 + s0 + w.getD (n - 7) 0 + s1) % M32]) w16

structure Sha256State where
  a : Nat
  b : Nat
  c : Nat
  d : Nat
  e : Nat
  f : Nat
  g : Nat
  h : Nat

/-- The 64 round constants of FIPS 180-4, written in decimal. -/
def sha256K : List Nat :=
  [1116352408, 1899447441, 3049323471, 3921009573, 961987163,
   1508970993, 2453635748, 2870763221, 3624381080, 310598401,
   607225278, 1426881987, 1925078388, 2162078206, 2614888103,
   3248222580, 3835390401, 4022224774, 264347078, 604807628,
   770255983, 1249150122, 1555081692, 1996064986, 2554220882,
   2821834349, 2952996808, 3210313671, 3336571891, 3584528711,
   113926993, 338241895, 666307205, 773529912, 1294757372,
   1396182291, 1695183700, 1986661051, 2177026350, 2456956037,
   2730485921, 2820302411, 3259730800, 3345764771, 3516065817,
   3600352804, 4094571909, 275423344, 430227734, 506948616,
   659060556, 883997877, 958139571, 1322822218, 1537002063,
   1747873779, 1955562222, 2024104815, 2227730452, 2361852424,
   2428436474, 2756734187, 3204031479, 3329325298]

def sha256Round (st : Sha256State) (kw : Nat × Nat) : Sha256State :=
  let S1 := (rotr32 6 st.e) ^^^ (rotr32 11 st.e) ^^^ (rotr32 25 st.e)
  let ch := (st.e &&& st.f) ^^^ ((st.e ^^^ 4294967295) &&& st.g)
  let temp1 := (st.h + S1 + ch + kw.1 + kw.2) % M32
  let S0 := (rotr32 2 st.a) ^^^ (rotr32 13 st.a) ^^^ (rotr32 22 st.a)
  let maj := (st.a &&& st.b) ^^^ (st.a &&& st.c) ^^^ (st.b &&& st.c)
  let temp2 := (S0 + maj) % M32
  { a := (temp1 + temp2) % M32, b := st.a, c := st.b, d := st.c,
    e := (st.d + temp1) % M32, f := st.e, g := st.f, h := st.g }

def sha256Chunk (H : Sha256State) (chunk : List Nat) : Sha256State :=
  let w16 := (chunksOf 4 chunk).map word4
  let w := sha256Schedule w16
  let st := (sha256K.zip w).foldl sha256Round H
  { a := (H.a + st.a) % M32, b := (H.b + st.b) % M32, c := (H.c + st.c) % M32,
    d := (H.d + st.d) % M32, e := (H.e + st.e) % M32, f := (H.f + st.f) % M32,
    g := (H.g + st.g) % M32, h := (H.h + st.h) % M32 }

def sha256Words (s : String) : List Nat :=
  let bytes := sha256Pad (utf8Bytes s)
  let H0 : Sha256State :=
    ⟨1779033703, 3144134277, 1013904242, 2773480762,
     1359893119, 2600822924, 528734635, 1541459225⟩
  let Hf := (chunksOf 64 bytes).foldl sha256Chunk H0
  [Hf.a, Hf.b, Hf.c, Hf.d, Hf.e, Hf.f, Hf.g, Hf.h]

def hexDigitChar (n : Nat) : Char :=
  "0123456789abcdef".data.getD n '0'

/-- Eight hexadecimal characters of one 32-bit word, most significant first. -/
def toHex8 (w : Nat) : List Char :=
  (List.range 8).map (fun i => hexDigitChar ((w >>> (28 - 4 * i)) % 16))

/-- `hashlib.sha256(s.encode()).hexdigest()`. -/
def sha256_hex (s : String) : String :=
  String.mk ((sha256Words s).map toHex8).flatten

/- ---------------------------------------------------------------------------
Python values flowing through result rows
--------------------------------------------------------------------------- -/

/-- Python values appearing in executor result rows, and their lists. -/
inductive PyVal where
  | int (n : Int)
  | str (s : String)
  | list (xs : List PyVal)

mutual
/-- Python `repr` of a value (`pyReprList` renders the elements of a list). -/
def pyReprVal : PyVal → String
  | PyVal.int n => toString n
  | PyVal.str s => "\x27" ++ s ++ "\x27"
  | PyVal.list xs => "[" ++ String.intercalate ", " (pyReprList xs) ++ "]"
def pyReprList : List PyVal → List String
  | [] => []
  | x :: xs => pyReprVal x :: pyReprList xs
end

/-- Python `str` of a value (`str` and `repr` agree on lists). -/
def pyStr : PyVal → String
  | PyVal.int n => toString n
  | PyVal.str s => s
  | PyVal.list xs => "[" ++ String.intercalate ", " (pyReprList xs) ++ "]"

/-- Python iteration, `for x in v`: lists yield their elements, strings yield
their characters, integers raise `TypeError`. -/
def pyIter : PyVal → Except String (List PyVal)
  | PyVal.list xs => Except.ok xs
  | PyVal.str s => Except.ok (s.data.map (fun c => PyVal.str (String.mk [c])))
  | PyVal.int _ => Except.error "TypeError: \x27int\x27 object is not iterable"

/-- Python `repr` of a string (as used on column names; the names contain no
quotes or escapes, for which repr is just single-quote wrapping). -/
def pyReprStr (s : String) : String :=
  "\x27" ++ s ++ "\x27"

/- ---------------------------------------------------------------------------
Data model of the agent
--------------------------------------------------------------------------- -/

/-- A parsed dotted identifier of the external `mindsdb_sql` AST: an ordered
sequence of name parts. -/
structure Identifier where
  parts : List String
  deriving DecidableEq

/-- One node visited by `query_traversal`: the `is_table` keyword with which
the callback is invoked, and the node itself when it is an `Identifier`
(other node kinds are `none`, the callback ignores them). An AST is modelled
by the sequence of nodes its traversal visits. -/
structure Node where
  is_table : Bool
  ident : Option Identifier

abbrev Ast : Type := List Node

/-- The executor result consumed by the core: ordered column names and the
rows of `ret.data.to_lists()`. -/
structure Ret where
  columns : List String
  data : List (List PyVal)

/-- The state of `SQLAgent.__init__` relevant to the claims (the cache object
is threaded separately through the functions that use it). -/
structure SQLAgent where
  database : String
  tables_to_include : Option (List String)
  tables_to_ignore : List String
  sample_rows_in_table_info : Nat

/-- Python truthiness of an optional list (`None` and `[]` are falsy). -/
def truthyOptList (o : Option (List String)) : Bool :=
  match o with
  | none => false
  | some l => !l.isEmpty

/-- `SQLAgent.__init__`: `ignore_tables` is dropped when `include_tables` is
truthy (`ignore_tables or []` otherwise). -/
def SQLAgent.make (database : String) (include_tables ignore_tables : Option (List String))
    (sample_rows_in_table_info : Nat) : SQLAgent :=
  { database := database
    tables_to_include := include_tables
    tables_to_ignore :=
      if truthyOptList include_tables then [] else ignore_tables.getD []
    sample_rows_in_table_info := sample_rows_in_table_info }

/- ---------------------------------------------------------------------------
Key/value dictionaries (Python dict objects and the external cache)
--------------------------------------------------------------------------- -/

/-- Python dict assignment `d[k] = v`; the newest binding shadows older ones. -/
def dictSet (d : List (α × β)) (key : α) (val : β) : List (α × β) :=
  (key, val) :: d

/-- Python dict lookup `d.get(k)` (also the get of the external cache). -/
def dictGet [BEq α] (d : List (α × β)) (key : α) : Option β :=
  (d.find? (fun p => p.1 == key)).map (fun p => p.2)

/- ---------------------------------------------------------------------------
Allow-list check and engine dispatch
--------------------------------------------------------------------------- -/

def typeErrNoneIter : String :=
  "TypeError: argument of type \x27NoneType\x27 is not iterable"

/-- The closure `_check_f` inside `SQLAgent._check_tables`. The membership
test `table not in self._tables_to_include` raises `TypeError` when the
include-list is `None`; when the table is missing from a configured
include-list the source only constructs
`ValueError(f"Table {table} not found. ...")` and discards it, so that branch
has no effect. -/
def _check_f (tables_to_include : Option (List String)) (node : Node) :
    Except String Unit :=
  if node.is_table = true then
    match node.ident with
    | some ident =>
      let table := ident.parts.getLastD ""
      match tables_to_include with
      | none => Except.error typeErrNoneIter
      | some inc =>
        if table ∉ inc then
          -- ValueError(...) is constructed here in the source and discarded:
          -- no raise, the traversal continues
          Except.ok ()
        else Except.ok ()
    | none => Except.ok ()
  else Except.ok ()

/-- `SQLAgent._check_tables`: `query_traversal(ast_query, _check_f)` visits the
nodes in order; an exception raised by the callback propagates. -/
def _check_tables (agent : SQLAgent) (ast_query : Ast) : Except String Unit :=
  List.forM ast_query (fun node => _check_f agent.tables_to_include node)

/-- `SQLAgent._call_engine`: strip backticks, parse, check tables, dispatch to
the external executor (`parse` and `execute` model `parse_sql` and
`command_executor.execute_command`). -/
def _call_engine (agent : SQLAgent) (parse : String → Ast)
    (execute : Ast → String → Except String Ret) (query : String)
    (database : Option String) : Except String Ret :=
  let ast_query := parse (pyStrip ['\x60'] query)
  match _check_tables agent ast_query with
  | Except.error e => Except.error e
  | Except.ok _ =>
    let db := database.getD agent.database
    execute ast_query db

/-- `SQLAgent._clean_query`: `re.sub(r"```(sql)?", "", query)`. -/
def cleanGo : List Char → List Char
  | '\x60' :: '\x60' :: '\x60' :: 's' :: 'q' :: 'l' :: rest => cleanGo rest
  | '\x60' :: '\x60' :: '\x60' :: rest => cleanGo rest
  | c :: rest => c :: cleanGo rest
  | [] => []

def _clean_query (query : String) : String :=
  String.mk (cleanGo query.data)

/- ---------------------------------------------------------------------------
Table-list cache line: get_usable_table_names
--------------------------------------------------------------------------- -/

/-- The key `f"{ctx.company_id}_{self._database}_tables"`. -/
def tablesCacheKey (company_id database : String) : String :=
  company_id ++ "_" ++ database ++ "_tables"

/-- `SQLAgent.get_usable_table_names`. The discovery round trips
(`_call_engine("show databases;")` and `_call_engine("show tables", db)`,
whose ASTs contain no table-tagged identifiers) are modelled by
`showDatabases` (first column of the rows) and `showTables` (which is
`Except`-valued: a per-database enumeration failure is caught and logged).
The source caches `set(usable_tables)`; the model stores the underlying list,
whose only later uses (truthiness, verbatim return) do not depend on
de-duplication. Returns the result and the updated cache. -/
def get_usable_table_names (agent : SQLAgent) (company_id : String)
    (showDatabases : List String)
    (showTables : String → Except String (List String))
    (cache : Option (List (String × List String))) :
    List String × Option (List (String × List String)) :=
  let cache_key := tablesCacheKey company_id agent.database
  let cachedHit : Option (List String) :=
    match cache with
    | some c =>
      match dictGet c cache_key with
      | some ts => if ts.isEmpty then none else some ts
      | none => none
    | none => none
  match cachedHit with
  | some ts => (ts, cache)
  | none =>
    if truthyOptList agent.tables_to_include then
      (agent.tables_to_include.getD [], cache)
    else
      let dbs := showDatabases.filter (fun db => db ≠ "information_schema")
      let usable_tables := dbs.foldl (fun acc db =>
        if db ≠ "mindsdb" ∧ db = agent.database then
          match showTables db with
          | Except.ok rows =>
            let tables := rows.filter (fun t => t ≠ "information_schema")
            acc ++ tables.filterMap (fun t =>
              let table_name := db ++ "." ++ t
              if table_name ∈ agent.tables_to_ignore then none else some table_name)
          | Except.error _ => acc
        else acc) []
      (usable_tables, cache.map (fun c => dictSet c cache_key usable_tables))

/- ---------------------------------------------------------------------------
Table-info cache line: cache key, cache probe, get_table_info
--------------------------------------------------------------------------- -/

/-- Code-point lexicographic comparison of character lists (the comparison
Python uses on strings). -/
def charListLe : List Char → List Char → Bool
  | [], _ => true
  | _ :: _, [] => false
  | a :: as, b :: bs =>
    if a.toNat < b.toNat then true
    else if b.toNat < a.toNat then false
    else charListLe as bs

def strLeB (a b : String) : Bool :=
  charListLe a.data b.data

def insertStr (a : String) : List String → List String
  | [] => [a]
  | b :: bs => if strLeB a b then a :: b :: bs else b :: insertStr a bs

/-- Python `sorted` on strings: the unique arrangement of the list that is
sorted in code-point lexicographic order (computed by insertion sort). -/
def pySorted : List String → List String
  | [] => []
  | a :: l => insertStr a (pySorted l)

/-- `SQLAgent._generate_cache_key`. -/
def _generate_cache_key (company_id database : String)
    (table_names : Option (List String)) : String :=
  let base_key := company_id ++ "_" ++ database ++ "_table_info"
  let full_key :=
    match table_names with
    | some names =>
      if names = [] then base_key
      else base_key ++ "_" ++ String.intercalate "_" (pySorted names)
    | none => base_key
  sha256_hex full_key

/-- A table-info mapping, name to description, in insertion order. -/
abbrev InfoDict : Type := List (String × String)

/-- `SQLAgent._get_info_from_cache`. `none` models Python `None`, `some []`
models the empty dict `{}`. A hit requires a truthy cached dict containing
every requested name and returns the requested names with their cached
descriptions, in request order. (Requested names are taken distinct; duplicate
requests would be de-duplicated by the dict comprehension of the source.) -/
def _get_info_from_cache (cache : Option (List (String × InfoDict)))
    (cache_key : String) (table_names : Option (List String)) : Option InfoDict :=
  let cached_info : Option InfoDict :=
    match cache with
    | some c => dictGet c cache_key
    | none => none
  let namesTruthy := truthyOptList table_names
  let hit : Option InfoDict :=
    match cached_info, namesTruthy with
    | some ci, true =>
      let names := table_names.getD []
      if (!ci.isEmpty) ∧ names.all (fun n => (dictGet ci n).isSome) then
        some (names.filterMap (fun n => (dictGet ci n).map (fun v => (n, v))))
      else none
    | _, _ => none
  match hit with
  | some d => some d
  | none => if namesTruthy then some [] else cached_info

/-- `SQLAgent._update_cache`. -/
def _update_cache (cache : Option (List (String × InfoDict))) (cache_key : String)
    (tables_info : InfoDict) : Option (List (String × InfoDict)) :=
  cache.map (fun c => dictSet c cache_key tables_info)

/-- `SQLAgent.get_table_info`. `fetch` models `_fetch_table_info` (discovery,
name resolution and per-table schema plus sample fetch through the engine),
`Except`-valued since it can raise; the surrounding `try/except` renders any
exception as an error string. Returns the text and the updated cache. -/
def get_table_info (agent : SQLAgent) (company_id : String)
    (fetch : Option (List String) → Except String InfoDict)
    (cache : Option (List (String × InfoDict)))
    (table_names : Option (List String)) :
    String × Option (List (String × InfoDict)) :=
  let cache_key := _generate_cache_key company_id agent.database table_names
  let tables_info := _get_info_from_cache cache cache_key table_names
  let ti0 : InfoDict := match tables_info with | some ti => ti | none => []
  if ti0 = [] then
    match fetch table_names with
    | Except.ok ti =>
      (String.intercalate "\n\n" (ti.map (fun p => p.2)),
       _update_cache cache cache_key ti)
    | Except.error e => ("Error fetching table info: " ++ e, cache)
  else
    (String.intercalate "\n\n" (ti0.map (fun p => p.2)), cache)

/- ---------------------------------------------------------------------------
Identifier resolution
--------------------------------------------------------------------------- -/

/-- Characters stripped from a raw table name in `_resolve_table_names`:
Python `table_name.strip(" `\"\x27\n\r")`. -/
def resolveStripChars : List Char :=
  [' ', '\x60', '"', '\x27', '\n', '\r']

def identQuoteChars : List Char :=
  [' ', '\x60', '"', '\x27']

/-- Modelled from the spec: the `Identifier(path_str)` constructor of the
external `mindsdb_sql` parser package is not part of this repository. Per the
specification (section 3), a table identifier is "an ordered sequence of name
parts (e.g. [database, table] or [table]), case- and quote-normalized": the
string is split on dots and each part is stripped of surrounding
backticks/quotes/whitespace and lowercased. -/
def Identifier.ofString (s : String) : Identifier :=
  { parts := (splitDot s).map (fun p => lowerStr (pyStrip identQuoteChars p)) }

/-- Modelled from the spec: `str(Identifier)` renders the dotted name, the
parts joined by dots. -/
def identStr (t : Identifier) : String :=
  String.intercalate "." t.parts

/-- The error message of the not-found branch of `_resolve_table_names`:
`f"Table {table} not found in database"` where `table` is the `Identifier`
built from the raw name after stripping. -/
def notFoundMsg (raw : String) : String :=
  let t := identStr (Identifier.ofString (pyStrip resolveStripChars raw))
  "Table " ++ t ++ " not found in database"

/-- The lookup index of `_resolve_table_names`: each catalog entry is indexed
by its simple (last-part) name and by its full part sequence. -/
def tables_idx (all_tables : List Identifier) : List (List String × Identifier) :=
  all_tables.foldl (fun idx t =>
    let idx := dictSet idx [t.parts.getLastD ""] t
    dictSet idx t.parts t) []

/-- The `for table_name in table_names` loop of `_resolve_table_names`: strip
each raw name, build an `Identifier`, look it up and collect the result; the
first unresolved name raises, aborting the whole loop. -/
def resolveLoop (idx : List (List String × Identifier)) :
    List String → Except String (List Identifier)
  | [] => Except.ok []
  | table_name :: rest =>
    let table := Identifier.ofString (pyStrip resolveStripChars table_name)
    match dictGet idx table.parts with
    | some t2 => (resolveLoop idx rest).map (fun ts => t2 :: ts)
    | none => Except.error (notFoundMsg table_name)

/-- `SQLAgent._resolve_table_names`. -/
def _resolve_table_names (table_names : List String)
    (all_tables : List Identifier) : Except String (List Identifier) :=
  resolveLoop (tables_idx all_tables) table_names

/-- Whether one raw name resolves against a catalog. -/
def resolves (all_tables : List Identifier) (raw : String) : Bool :=
  (dictGet (tables_idx all_tables)
    (Identifier.ofString (pyStrip resolveStripChars raw)).parts).isSome

/- ---------------------------------------------------------------------------
Result rendering and the query entry point
--------------------------------------------------------------------------- -/

/-- The closure `_tidy` inside `SQLAgent.query`:
`"\n".join(["\t".join([str(value) for value in row]) for row in result])`.
Both loops are Python iterations, so the argument is a `PyVal`. -/
def _tidy (result : PyVal) : Except String String := do
  let rows ← pyIter result
  let lines ← rows.mapM (fun row => do
    let vals ← pyIter row
    Except.ok (String.intercalate "\t" (vals.map pyStr)))
  Except.ok (String.intercalate "\n" lines)

/-- Row rendering on a plain list of rows (what `_tidy` computes whenever it
is applied to an actual list of rows). -/
def tidyRows (rows : List (List PyVal)) : String :=
  String.intercalate "\n"
    (rows.map (fun row => String.intercalate "\t" (row.map pyStr)))

/-- The closure `_repr_result` inside `SQLAgent.query`. `describe` models
`str(pandas.DataFrame(data, columns).describe(include="all"))`. -/
def _repr_result (describe : List String → List (List PyVal) → String)
    (ret : Ret) : Except String String := do
  let limit_rows := 30
  let columns_str := String.intercalate ", " (ret.columns.map pyReprStr)
  let res := "Output columns: " ++ columns_str ++ "\n"
  let data := ret.data
  let res :=
    if data.length > limit_rows then
      res ++ "Result has " ++ toString data.length
          ++ " rows. Description of data:\n"
          ++ describe ret.columns data ++ "\n\n"
          ++ "First " ++ toString limit_rows ++ " rows:\n"
    else
      res ++ "Result:\n"
  let body ← _tidy (PyVal.list ((data.take limit_rows).map PyVal.list))
  Except.ok (res ++ body)

/-- `SQLAgent.query`: clean the command, dispatch through `_call_engine`, then
render according to `fetch`. `fetch="one"` passes `ret.data.to_lists()[0]`
(the first row, not a one-row list) to `_tidy`. -/
def query (agent : SQLAgent) (parse : String → Ast)
    (execute : Ast → String → Except String Ret)
    (describe : List String → List (List PyVal) → String)
    (command : String) (fetch : String) : Except String String := do
  let ret ← _call_engine agent parse execute (_clean_query command) none
  if fetch = "all" then
    _repr_result describe ret
  else if fetch = "one" then
    match ret.data with
    | [] => Except.error "IndexError: list index out of range"
    | row :: _ => _tidy (PyVal.list row)
  else
    Except.error "Fetch parameter must be either \x27one\x27 or \x27all\x27"

/- ---------------------------------------------------------------------------
Sample rows
--------------------------------------------------------------------------- -/

/-- One cell of the sample-row comprehension:
`str(i) if len(str(i)) < 100 else str[:100] + "..."`. The else branch
subscripts the builtin type `str` (not `str(i)`), which raises `TypeError`. -/
def truncSampleCell (i : PyVal) : Except String String :=
  let s := pyStr i
  if s.length < 100 then Except.ok s
  else Except.error "TypeError: \x27type\x27 object is not subscriptable"

/-- The sampling command built by `_get_sample_rows`. -/
def sampleCommand (agent : SQLAgent) (table : String) (fields : List String) :
    String :=
  "select " ++ String.intercalate "," fields ++ " from " ++ table
    ++ " limit " ++ toString agent.sample_rows_in_table_info ++ ";"

/-- The fixed placeholder of the except branch of `_get_sample_rows`. -/
def samplePlaceholder : String :=
  "\n" ++ "\t [error] Couldn\x27t retrieve sample rows!"

/-- `SQLAgent._get_sample_rows`: run the bounded select through the engine and
render the rows; any exception inside the try block (engine failure, or the
`TypeError` of the truncation slip) falls back to the placeholder. -/
def _get_sample_rows (agent : SQLAgent) (parse : String → Ast)
    (execute : Ast → String → Except String Ret) (table : String)
    (fields : List String) : String :=
  let command := sampleCommand agent table fields
  let attempt : Except String String := do
    let ret ← _call_engine agent parse execute command none
    let sample_rows ← ret.data.mapM (fun ls => ls.mapM truncSampleCell)
    Except.ok ("\n" ++ String.intercalate "\n"
      (sample_rows.map (fun row => String.intercalate "\t" row)))
  match attempt with
  | Except.ok s => s
  | Except.error _ => samplePlaceholder

/-- Whether a traversal visits some identifier node tagged as a table. -/
def hasTableRef (ast : Ast) : Bool :=
  ast.any (fun node => node.is_table && node.ident.isSome)

/- ---------------------------------------------------------------------------
Concrete fixtures used by the claim theorems, counterexamples and witnesses
--------------------------------------------------------------------------- -/

def c1agent : SQLAgent := SQLAgent.make "db" (some ["a"]) none 3

def c1ast : Ast := [Node.mk true (some (Identifier.mk ["b"]))]

def c1ret : Ret := Ret.mk ["executed"] []

def c2agent : SQLAgent := SQLAgent.make "db" (some ["shop.orders"]) none 3

def c2cache : List (String × List String) := [("1_db_tables", ["evil.table"])]

def c3agent : SQLAgent := SQLAgent.make "db" none none 3

def c3key : String := _generate_cache_key "1" "db" (some ["t"])

def c3ci : InfoDict := [("t", "cached description")]

def c3cacheHit : List (String × InfoDict) := [(c3key, c3ci)]

def c3fresh : InfoDict := [("t", "fresh description")]

def c6catalog : List Identifier := [Identifier.mk ["shop", "orders"]]

def c7ret : Ret :=
  Ret.mk ["a", "b"] [[PyVal.int 1, PyVal.str "a"], [PyVal.int 2, PyVal.str "b"]]

def c7call : Except String String :=
  query (SQLAgent.make "db" (some ["t"]) none 3) (fun _ => ([] : Ast))
    (fun _ _ => Except.ok c7ret) (fun _ _ => "") "select * from t" "one"

def c8describe : List String → List (List PyVal) → String :=
  fun _ _ => "stats block"

def c8ret40 : Ret := Ret.mk ["c"] ((List.range 40).map (fun i => [PyVal.int (Int.ofNat i)]))

def c8ret3 : Ret := Ret.mk ["c"] [[PyVal.int 0], [PyVal.int 1], [PyVal.int 2]]

def c9cell : String := String.mk (List.replicate 150 'a')

def c10agent : SQLAgent := SQLAgent.make "db" none none 3

def c10parse : String → Ast := fun _ => [Node.mk true (some (Identifier.mk ["t"]))]

def c10exec : Ast → String → Except String Ret := fun _ _ => Except.ok (Ret.mk [] [])

/- ---------------------------------------------------------------------------
Helper lemmas
--------------------------------------------------------------------------- -/

theorem charToNatInj {a b : Char} (h : a.toNat = b.toNat) : a = b := by
  cases a; cases b
  simp only [Char.toNat] at h
  congr 1
  exact UInt32.ext h

theorem charListLe_trans : ∀ {as bs cs : List Char},
    charListLe as bs = true → charListLe bs cs = true → charListLe as cs = true
  | [], _, _, _, _ => rfl
  | _ :: _, [], _, h1, _ => by simp [charListLe] at h1
  | _ :: _, _ :: _, [], _, h2 => by simp [charListLe] at h2
  | a :: as, b :: bs, c :: cs, h1, h2 => by
    unfold charListLe at h1 h2 ⊢
    by_cases hab : a.toNat < b.toNat
    · by_cases hbc : b.toNat < c.toNat
      · have hac : a.toNat < c.toNat := by omega
        simp [hac]
      · rw [if_neg hbc] at h2
        by_cases hcb : c.toNat < b.toNat
        · rw [if_pos hcb] at h2; exact absurd h2 (by simp)
        · have hac : a.toNat < c.toNat := by omega
          simp [hac]
    · rw [if_neg hab] at h1
      by_cases hba : b.toNat < a.toNat
      · rw [if_pos hba] at h1; exact absurd h1 (by simp)
      · rw [if_neg hba] at h1
        by_cases hbc : b.toNat < c.toNat
        · have hac : a.toNat < c.toNat := by omega
          simp [hac]
        · rw [if_neg hbc] at h2
          by_cases hcb : c.toNat < b.toNat
          · rw [if_pos hcb] at h2; exact absurd h2 (by simp)
          · rw [if_neg hcb] at h2
            have hac : ¬ a.toNat < c.toNat := by omega
            have hca : ¬ c.toNat < a.toNat := by omega
            rw [if_neg hac, if_neg hca]
            exact charListLe_trans h1 h2

theorem charListLe_antisymm : ∀ {as bs : List Char},
    charListLe as bs = true → charListLe bs as = true → as = bs
  | [], [], _, _ => rfl
  | [], _ :: _, _, h2 => by simp [charListLe] at h2
  | _ :: _, [], h1, _ => by simp [charListLe] at h1
  | a :: as, b :: bs, h1, h2 => by
    unfold charListLe at h1 h2
    by_cases hab : a.toNat < b.toNat
    · rw [if_neg (by omega : ¬ b.toNat < a.toNat), if_pos hab] at h2
      exact absurd h2 (by simp)
    · rw [if_neg hab] at h1
      by_cases hba : b.toNat < a.toNat
      · rw [if_pos hba] at h1; exact absurd h1 (by simp)
      · rw [if_neg hba] at h1
        rw [if_neg hba, if_neg hab] at h2
        have hcc : a = b := charToNatInj (by omega)
        rw [hcc, charListLe_antisymm h1 h2]

theorem charListLe_total : ∀ (as bs : List Char),
    charListLe as bs = true ∨ charListLe bs as = true
  | [], _ => Or.inl rfl
  | _ :: _, [] => Or.inr rfl
  | a :: as, b :: bs => by
    unfold charListLe
    by_cases hab : a.toNat < b.toNat
    · left; simp [hab]
    · by_cases hba : b.toNat < a.toNat
      · right; simp [hba]
      · rw [if_neg hab, if_neg hba, if_neg hba, if_neg hab]
        exact charListLe_total as bs

/-- The order used by the model of Python `sorted`. -/
def StrLe : String → String → Prop :=
  fun a b => strLeB a b = true

theorem strLeB_antisymm {a b : String} (h1 : strLeB a b = true)
    (h2 : strLeB b a = true) : a = b := by
  cases a; cases b
  unfold strLeB at h1 h2
  exact congrArg String.mk (charListLe_antisymm h1 h2)

theorem strLeB_total (a b : String) : strLeB a b = true ∨ strLeB b a = true :=
  charListLe_total a.data b.data

theorem strLeB_trans {a b c : String} (h1 : strLeB a b = true)
    (h2 : strLeB b c = true) : strLeB a c = true :=
  charListLe_trans h1 h2

theorem insertStr_perm (a : String) :
    ∀ (l : List String), (insertStr a l).Perm (a :: l)
  | [] => List.Perm.refl _
  | b :: bs => by
    unfold insertStr
    by_cases h : strLeB a b = true
    · rw [if_pos h]
    · rw [if_neg h]
      exact ((insertStr_perm a bs).cons b).trans (List.Perm.swap a b bs)

theorem pySorted_perm : ∀ (l : List String), (pySorted l).Perm l
  | [] => List.Perm.refl _
  | a :: l => (insertStr_perm a (pySorted l)).trans ((pySorted_perm l).cons a)

theorem insertStr_sorted (a : String) :
    ∀ {l : List String}, l.Sorted StrLe → (insertStr a l).Sorted StrLe
  | [], _ => List.sorted_singleton a
  | b :: bs, h => by
    unfold insertStr
    rw [List.sorted_cons] at h
    by_cases hab : strLeB a b = true
    · rw [if_pos hab, List.sorted_cons]
      refine ⟨fun x hx => ?_, List.sorted_cons.mpr h⟩
      rcases List.mem_cons.mp hx with hxb | hxbs
      · exact hxb ▸ hab
      · exact strLeB_trans hab (h.1 x hxbs)
    · rw [if_neg hab, List.sorted_cons]
      have hba : strLeB b a = true := (strLeB_total a b).resolve_left hab
      refine ⟨fun x hx => ?_, insertStr_sorted a h.2⟩
      rcases List.mem_cons.mp ((insertStr_perm a bs).mem_iff.mp hx) with hxa | hxbs
      · exact hxa ▸ hba
      · exact h.1 x hxbs

theorem pySorted_sorted : ∀ (l : List String), (pySorted l).Sorted StrLe
  | [] => List.sorted_nil
  | a :: l => insertStr_sorted a (pySorted_sorted l)

/-- Permutation invariance of the sorting step of `_generate_cache_key`. -/
theorem pySorted_perm_eq {l₁ l₂ : List String} (h : l₁.Perm l₂) :
    pySorted l₁ = pySorted l₂ := by
  haveI : IsAntisymm String StrLe := ⟨fun _ _ h1 h2 => strLeB_antisymm h1 h2⟩
  exact List.eq_of_perm_of_sorted
    ((pySorted_perm l₁).trans (h.trans (pySorted_perm l₂).symm))
    (pySorted_sorted l₁) (pySorted_sorted l₂)

theorem toHex8_length (w : Nat) : (toHex8 w).length = 8 := by
  simp [toHex8]

theorem sha256Words_length (s : String) : (sha256Words s).length = 8 := rfl

/-- Every hex digest has exactly 64 characters. -/
theorem sha256_hex_length (s : String) : (sha256_hex s).length = 64 := by
  show ((sha256Words s).map toHex8).flatten.length = 64
  have h8 := sha256Words_length s
  rw [List.length_flatten, List.map_map]
  have hconst : (sha256Words s).map (List.length ∘ toHex8)
      = (sha256Words s).map (fun _ => 8) :=
    List.map_congr_left (fun w _ => toHex8_length w)
  rw [hconst, List.map_const', List.sum_replicate, h8, smul_eq_mul]

theorem mapM_ok {α β : Type} (g : α → β) :
    ∀ (l : List α),
      (l.mapM (fun x => Except.ok (g x)) : Except String (List β))
        = Except.ok (l.map g)
  | [] => rfl
  | x :: xs => by
    rw [List.mapM_cons, mapM_ok g xs]
    rfl

/-- What `_tidy` computes whenever it receives an actual list of rows. -/
theorem tidy_on_rows (rows : List (List PyVal)) :
    _tidy (PyVal.list (rows.map PyVal.list)) = Except.ok (tidyRows rows) := by
  unfold _tidy tidyRows
  have h : ((rows.map PyVal.list).mapM (fun row => do
      let vals ← pyIter row
      Except.ok (String.intercalate "\t" (vals.map pyStr)))
        : Except String (List String))
      = Except.ok (rows.map (fun row => String.intercalate "\t" (row.map pyStr))) := by
    induction rows with
    | nil => rfl
    | cons r rs ih =>
      rw [List.map_cons, List.mapM_cons, ih]
      rfl
  rw [show pyIter (PyVal.list (rows.map PyVal.list))
      = Except.ok (rows.map PyVal.list) from rfl]
  show ((rows.map PyVal.list).mapM _ : Except String (List String)).bind _ = _
  rw [h]
  rfl

theorem filterMap_pair_snd (ci : InfoDict) (names : List String) :
    (names.filterMap (fun n => (dictGet ci n).map (fun v => (n, v)))).map
        (fun p => p.2)
      = names.filterMap (fun n => dictGet ci n) := by
  induction names with
  | nil => rfl
  | cons n ns ih =>
    cases hg : dictGet ci n with
    | none => simp [List.filterMap_cons, hg, ih]
    | some v => simp [List.filterMap_cons, hg, ih]

/-- With include-list `None`, the traversal raises `TypeError` at the first
table-tagged identifier node. -/
theorem check_tables_none_err (agent : SQLAgent)
    (hinc : agent.tables_to_include = none) :
    ∀ (ast : Ast), hasTableRef ast = true →
      _check_tables agent ast = Except.error typeErrNoneIter
  | [], h => by simp [hasTableRef] at h
  | node :: rest, h => by
    have hstep : _check_tables agent (node :: rest)
        = (_check_f agent.tables_to_include node
            >>= fun _ => _check_tables agent rest) := rfl
    rw [hstep]
    by_cases hn : node.is_table = true ∧ node.ident.isSome = true
    · obtain ⟨h1, h2⟩ := hn
      obtain ⟨i, hi⟩ := Option.isSome_iff_exists.mp h2
      have herr : _check_f agent.tables_to_include node
          = Except.error typeErrNoneIter := by
        simp [_check_f, h1, hi, hinc]
      rw [herr]
      rfl
    · have hrest : hasTableRef rest = true := by
        unfold hasTableRef at h
        rw [List.any_cons] at h
        rcases Bool.or_eq_true_iff.mp h with h' | h'
        · exact absurd (Bool.and_eq_true_iff.mp h') hn
        · exact h'
      have hok : _check_f agent.tables_to_include node = Except.ok () := by
        unfold _check_f
        cases h1 : node.is_table with
        | false => simp [h1]
        | true =>
          cases h2 : node.ident with
          | none => simp [h1, h2]
          | some i =>
            exact absurd ⟨h1, by simp [h2]⟩ hn
      rw [hok]
      exact check_tables_none_err agent hinc rest hrest

/- ---------------------------------------------------------------------------
Claim theorems
--------------------------------------------------------------------------- -/

/-- Claim C1 (refuted by the code, a code bug): with include-list ["a"]
configured and a parsed query whose traversal visits the table-tagged
identifier b outside the list, `_check_tables` succeeds anyway (the source
constructs the ValueError and never raises it) and `_call_engine` invokes the
external executor and returns its result, so the command is not rejected
before dispatch. -/
theorem c1_violation_not_rejected_executor_runs :
    ("b" ∉ ["a"])
    ∧ _check_tables c1agent c1ast = Except.ok ()
    ∧ _call_engine c1agent (fun _ => c1ast) (fun _ _ => Except.ok c1ret)
        "select * from b" none
      = Except.ok c1ret :=
  ⟨by decide, rfl, rfl⟩

/-- Claim C4: `_generate_cache_key` is a pure function of the tenant id, the
database and the sorted requested table names: permutations of the name list
give the same key, identical inputs give identical keys (purity is
definitional in this embedding, the middle conjunct), and every key is the
64-character SHA-256 hex digest. -/
theorem c4_cache_key_stable_and_fixed_length (company_id database : String)
    (names₁ names₂ : List String) (hperm : names₁.Perm names₂) :
    _generate_cache_key company_id database (some names₁)
      = _generate_cache_key company_id database (some names₂)
    ∧ _generate_cache_key company_id database (some names₁)
      = _generate_cache_key company_id database (some names₁)
    ∧ ∀ table_names : Option (List String),
        (_generate_cache_key company_id database table_names).length = 64 := by
  refine ⟨?_, rfl, fun table_names => sha256_hex_length _⟩
  by_cases h1 : names₁ = []
  · subst h1
    have h2 : names₂ = [] := hperm.symm.eq_nil
    subst h2
    rfl
  · have h2 : names₂ ≠ [] := fun he => h1 ((he ▸ hperm).eq_nil)
    show sha256_hex (if names₁ = []
        then company_id ++ "_" ++ database ++ "_table_info"
        else company_id ++ "_" ++ database ++ "_table_info" ++ "_"
          ++ String.intercalate "_" (pySorted names₁))
      = sha256_hex (if names₂ = []
        then company_id ++ "_" ++ database ++ "_table_info"
        else company_id ++ "_" ++ database ++ "_table_info" ++ "_"
          ++ String.intercalate "_" (pySorted names₂))
    rw [if_neg h1, if_neg h2, pySorted_perm_eq hperm]

/-- Witness for C4 at the concrete permuted pair ["b","a"] and ["a","b"]. -/
theorem c4_witness :
    _generate_cache_key "1" "db" (some ["b", "a"])
      = _generate_cache_key "1" "db" (some ["a", "b"])
    ∧ _generate_cache_key "1" "db" (some ["b", "a"])
      = _generate_cache_key "1" "db" (some ["b", "a"])
    ∧ ∀ table_names : Option (List String),
        (_generate_cache_key "1" "db" table_names).length = 64 :=
  c4_cache_key_stable_and_fixed_length "1" "db" ["b", "a"] ["a", "b"]
    (List.Perm.swap "a" "b" [])

/-- Claim C5: resolving the backtick-wrapped Orders, the double-quote-wrapped
orders and the bare orders against a catalog containing shop.orders yields the
same catalog entry three times; `_resolve_table_names` strips the wrapping and
matches the case- and quote-normalized identifier by simple name. -/
theorem c5_resolution_normalizes :
    _resolve_table_names ["\x60Orders\x60", "\"orders\"", "orders"] c6catalog
      = Except.ok [Identifier.mk ["shop", "orders"],
          Identifier.mk ["shop", "orders"], Identifier.mk ["shop", "orders"]] :=
  rfl

/-- Claim C7 (refuted by the code, a code bug): fetch="one" passes the first
row itself (not a one-row list) to `_tidy`, which then iterates the cell
values and iterates inside each value; on rows [[1,"a"],[2,"b"]] the first
value is the integer 1 whose iteration raises TypeError, so the call errors
instead of returning the tab-joined first row. -/
theorem c7_fetch_one_type_error :
    c7call = Except.error "TypeError: \x27int\x27 object is not iterable"
    ∧ c7call ≠ Except.ok "1\ta" := by
  refine ⟨rfl, fun h => ?_⟩
  rw [show c7call
      = Except.error "TypeError: \x27int\x27 object is not iterable" from rfl] at h
  simp at h

/-- Claim C9 (first half refuted by the code, a code bug): a sample cell whose
string form has at least 100 characters makes the sample comprehension
evaluate the slip `str[:100]` (subscripting the builtin type), raising a
TypeError that the blanket except converts into the fixed placeholder, so no
truncated cell is ever rendered; the main row renderer `_tidy` does render the
same oversized value at full length, untruncated. -/
theorem c9_sample_truncation_is_type_error :
    100 ≤ c9cell.length
    ∧ _get_sample_rows (SQLAgent.make "db" (some ["t"]) none 3)
        (fun _ => ([] : Ast))
        (fun _ _ => Except.ok (Ret.mk ["c"] [[PyVal.str c9cell]]))
        "t" ["c"]
      = samplePlaceholder
    ∧ _tidy (PyVal.list [PyVal.list [PyVal.str c9cell]]) = Except.ok c9cell :=
  ⟨by decide, rfl, rfl⟩

/-- Claim C6 counterexample: resolving the backtick-wrapped raw string
missing fails, but the error names the identifier after stripping, not the
exact raw string as supplied by the caller (the backticks are gone). -/
theorem c6_counterexample :
    _resolve_table_names ["\x60missing\x60"] c6catalog
      = Except.error "Table missing not found in database"
    ∧ "Table missing not found in database"
      ≠ "Table \x60missing\x60 not found in database" :=
  ⟨rfl, by decide⟩

/-- Claim C6 (amended): if some requested name does not resolve against the
catalog, the whole batch fails with the not-found error naming the first
failing identifier after normalization (stripping backticks, quotes and
whitespace, and case normalization) — not necessarily the exact raw string —
and no partial list of resolved entries is returned. -/
theorem c6_unresolved_name_aborts_batch (table_names : List String)
    (all_tables : List Identifier)
    (h : ∃ n ∈ table_names, resolves all_tables n = false) :
    ∃ n ∈ table_names, resolves all_tables n = false ∧
      _resolve_table_names table_names all_tables
        = Except.error (notFoundMsg n) := by
  induction table_names with
  | nil => simp at h
  | cons a l ih =>
    by_cases ha : resolves all_tables a = false
    · refine ⟨a, List.mem_cons_self a l, ha, ?_⟩
      unfold resolves at ha
      have hnone : dictGet (tables_idx all_tables)
          (Identifier.ofString (pyStrip resolveStripChars a)).parts = none := by
        cases hq : dictGet (tables_idx all_tables)
            (Identifier.ofString (pyStrip resolveStripChars a)).parts with
        | none => rfl
        | some t2 => rw [hq] at ha; simp at ha
      unfold _resolve_table_names resolveLoop
      simp [hnone]
    · have ha' : resolves all_tables a = true := by
        cases hq : resolves all_tables a
        · exact absurd hq ha
        · rfl
      obtain ⟨n, hn, hnf⟩ := h
      rcases List.mem_cons.mp hn with rfl | hnl
      · exact absurd hnf ha
      · obtain ⟨m, hm, hmf, heq⟩ := ih ⟨n, hnl, hnf⟩
        refine ⟨m, List.mem_cons_of_mem a hm, hmf, ?_⟩
        unfold resolves at ha'
        obtain ⟨t2, ht2⟩ := Option.isSome_iff_exists.mp ha'
        unfold _resolve_table_names at heq ⊢
        unfold resolveLoop
        simp [ht2, heq]
        rfl

/-- Witness for the amended C6 on a concrete failing batch. -/
theorem c6_witness :
    ∃ n ∈ ["orders", "\x60missing2\x60"], resolves c6catalog n = false ∧
      _resolve_table_names ["orders", "\x60missing2\x60"] c6catalog
        = Except.error (notFoundMsg n) :=
  c6_unresolved_name_aborts_batch ["orders", "\x60missing2\x60"] c6catalog
    ⟨"\x60missing2\x60", by decide, by decide⟩

/-- Claim C10: with no include-list configured (include_tables None), every
`_call_engine` dispatch whose parsed query traversal visits a table-tagged
identifier raises the TypeError of the membership test against None before the
executor runs; hence `query` fails with that TypeError for any
table-referencing SQL and `_get_sample_rows` always falls back to its
placeholder in this configuration. -/
theorem c10_none_include_type_error (agent : SQLAgent)
    (hinc : agent.tables_to_include = none)
    (parse : String → Ast) (execute : Ast → String → Except String Ret)
    (describe : List String → List (List PyVal) → String)
    (q cmd fetch table : String) (fields : List String) (db : Option String)
    (hq : hasTableRef (parse (pyStrip ['\x60'] q)) = true)
    (hc : hasTableRef (parse (pyStrip ['\x60'] (_clean_query cmd))) = true)
    (hs : hasTableRef (parse (pyStrip ['\x60']
        (sampleCommand agent table fields))) = true) :
    _call_engine agent parse execute q db = Except.error typeErrNoneIter
    ∧ query agent parse execute describe cmd fetch
        = Except.error typeErrNoneIter
    ∧ _get_sample_rows agent parse execute table fields = samplePlaceholder := by
  have hce : ∀ (qq : String) (dd : Option String),
      hasTableRef (parse (pyStrip ['\x60'] qq)) = true →
      _call_engine agent parse execute qq dd = Except.error typeErrNoneIter := by
    intro qq dd hqq
    simp only [_call_engine]
    rw [check_tables_none_err agent hinc _ hqq]
  refine ⟨hce q db hq, ?_, ?_⟩
  · simp only [query]
    rw [hce _ none hc]
    rfl
  · simp only [_get_sample_rows]
    rw [hce _ none hs]
    rfl

/-- Witness for C10 at a concrete agent without include-list, a parser whose
output contains a table-tagged identifier, and a benign executor. -/
theorem c10_witness :
    _call_engine c10agent c10parse c10exec "x" none
      = Except.error typeErrNoneIter
    ∧ query c10agent c10parse c10exec (fun _ _ => "") "y" "all"
      = Except.error typeErrNoneIter
    ∧ _get_sample_rows c10agent c10parse c10exec "t" ["c"] = samplePlaceholder :=
  c10_none_include_type_error c10agent rfl c10parse c10exec (fun _ _ => "")
    "x" "y" "all" "t" ["c"] none rfl rfl rfl

/-- Claim C2 counterexample: with include-list ["shop.orders"] configured but
a truthy cached entry under the tenant key, `get_usable_table_names` returns
the cached list, not the include-list, and the result is not a subset of the
include-list. -/
theorem c2_counterexample :
    (get_usable_table_names c2agent "1" [] (fun _ => Except.ok [])
        (some c2cache)).1
      = ["evil.table"]
    ∧ "evil.table" ∈ (get_usable_table_names c2agent "1" []
        (fun _ => Except.ok []) (some c2cache)).1
    ∧ "evil.table" ∉ (["shop.orders"] : List String) :=
  ⟨rfl, by decide, by decide⟩

/-- Claim C2 (amended): the cache is consulted before the include-list. When
an include-list is configured, (a) if the cache is absent or holds no truthy
entry under the tenant key, the include-list is returned verbatim (discovery
bypassed); (b) a truthy cached entry is returned verbatim instead, taking
precedence over the include-list. -/
theorem c2_include_list_after_cache (agent : SQLAgent) (company_id : String)
    (showDatabases : List String)
    (showTables : String → Except String (List String))
    (cache : Option (List (String × List String))) (inc : List String)
    (hinc : agent.tables_to_include = some inc) (hne : inc ≠ []) :
    ((∀ c, cache = some c →
        ∀ ts, dictGet c (tablesCacheKey company_id agent.database) = some ts →
          ts = []) →
      (get_usable_table_names agent company_id showDatabases showTables
        cache).1 = inc)
    ∧ (∀ c ts, cache = some c →
        dictGet c (tablesCacheKey company_id agent.database) = some ts →
        ts ≠ [] →
      (get_usable_table_names agent company_id showDatabases showTables
        cache).1 = ts) := by
  constructor
  · intro hmiss
    unfold get_usable_table_names
    cases cache with
    | none =>
      simp [hinc, truthyOptList, List.isEmpty_iff, hne]
    | some c =>
      cases hg : dictGet c (tablesCacheKey company_id agent.database) with
      | none =>
        simp [hg, hinc, truthyOptList, List.isEmpty_iff, hne]
      | some ts =>
        have hts : ts = [] := hmiss c rfl ts hg
        subst hts
        simp [hg, hinc, truthyOptList, List.isEmpty_iff, hne]
  · intro c ts hc hg hts
    subst hc
    unfold get_usable_table_names
    simp [hg, List.isEmpty_iff, hts]

/-- Witness for the amended C2: cache-precedence branch on the concrete
poisoned cache, and include-list branch with no cache. -/
theorem c2_witness :
    (get_usable_table_names c2agent "1" [] (fun _ => Except.ok []) none).1
      = ["shop.orders"]
    ∧ (get_usable_table_names c2agent "1" [] (fun _ => Except.ok [])
        (some c2cache)).1 = ["evil.table"] :=
  ⟨(c2_include_list_after_cache c2agent "1" [] (fun _ => Except.ok []) none
      ["shop.orders"] rfl (by decide)).1 (fun c hc => Option.noConfusion hc),
   (c2_include_list_after_cache c2agent "1" [] (fun _ => Except.ok [])
      (some c2cache) ["shop.orders"] rfl (by decide)).2 c2cache ["evil.table"]
      rfl rfl (by decide)⟩

/-- Claim C8: with more than 30 rows, the renderer used by query fetch=all
emits the column-name list, then the descriptive-statistics block, then
exactly the first 30 data rows as tab-separated lines; with at most 30 rows it
emits all rows and no statistics block — in that case the output does not
depend on the describe renderer at all. -/
theorem c8_row_limit_and_stats
    (describe : List String → List (List PyVal) → String) (ret : Ret) :
    (30 < ret.data.length →
      _repr_result describe ret
        = Except.ok ("Output columns: "
            ++ String.intercalate ", " (ret.columns.map pyReprStr) ++ "\n"
            ++ "Result has " ++ toString ret.data.length
            ++ " rows. Description of data:\n"
            ++ describe ret.columns ret.data ++ "\n\n"
            ++ "First " ++ toString 30 ++ " rows:\n"
            ++ tidyRows (ret.data.take 30))
      ∧ (ret.data.take 30).length = 30)
    ∧ (ret.data.length ≤ 30 →
      _repr_result describe ret
        = Except.ok ("Output columns: "
            ++ String.intercalate ", " (ret.columns.map pyReprStr) ++ "\n"
            ++ "Result:\n" ++ tidyRows ret.data)
      ∧ ∀ describe2, _repr_result describe2 ret = _repr_result describe ret) := by
  constructor
  · intro h
    constructor
    · simp only [_repr_result]
      rw [if_pos h, tidy_on_rows]
      rfl
    · rw [List.length_take]
      omega
  · intro h
    have hnot : ¬ (ret.data.length > 30) := by omega
    constructor
    · simp only [_repr_result]
      rw [if_neg hnot, List.take_of_length_le h, tidy_on_rows]
      rfl
    · intro describe2
      simp only [_repr_result]
      rw [if_neg hnot, if_neg hnot]

/-- Witness for C8 on concrete 40-row and 3-row results. -/
theorem c8_witness :
    (_repr_result c8describe c8ret40
        = Except.ok ("Output columns: "
            ++ String.intercalate ", " (c8ret40.columns.map pyReprStr) ++ "\n"
            ++ "Result has " ++ toString c8ret40.data.length
            ++ " rows. Description of data:\n"
            ++ c8describe c8ret40.columns c8ret40.data ++ "\n\n"
            ++ "First " ++ toString 30 ++ " rows:\n"
            ++ tidyRows (c8ret40.data.take 30))
      ∧ (c8ret40.data.take 30).length = 30)
    ∧ (_repr_result c8describe c8ret3
        = Except.ok ("Output columns: "
            ++ String.intercalate ", " (c8ret3.columns.map pyReprStr) ++ "\n"
            ++ "Result:\n" ++ tidyRows c8ret3.data)
      ∧ ∀ describe2,
          _repr_result describe2 c8ret3 = _repr_result c8describe c8ret3) :=
  ⟨(c8_row_limit_and_stats c8describe c8ret40).1 (by decide),
   (c8_row_limit_and_stats c8describe c8ret3).2 (by decide)⟩

/-- Claim C3: `get_table_info` serves a cached result only when the cached
mapping contains every requested name — returning exactly the cached
descriptions of the requested names in request order, leaving the cache
unchanged and never consulting the fetcher; if any requested name is missing
from the cached mapping (or there is no entry at all), it re-fetches the whole
request and stores the fresh mapping under the computed key, never returning a
partial result or merging fresh data with stale cached entries. -/
theorem c3_cache_hit_all_or_full_refetch (agent : SQLAgent) (company_id : String)
    (fetch : Option (List String) → Except String InfoDict)
    (c : List (String × InfoDict)) (names : List String) (key : String)
    (hne : names ≠ [])
    (hkey : key = _generate_cache_key company_id agent.database (some names)) :
    (∀ ci, dictGet c key = some ci →
      names.all (fun n => (dictGet ci n).isSome) = true →
      get_table_info agent company_id fetch (some c) (some names)
        = (String.intercalate "\n\n" (names.filterMap (fun n => dictGet ci n)),
           some c))
    ∧ ((∀ ci, dictGet c key = some ci → ∃ n ∈ names, dictGet ci n = none) →
      ∀ ti, fetch (some names) = Except.ok ti →
      get_table_info agent company_id fetch (some c) (some names)
        = (String.intercalate "\n\n" (ti.map (fun p => p.2)),
           some (dictSet c key ti))) := by
  subst hkey
  constructor
  · intro ci hci hall
    obtain ⟨n₀, rest, rfl⟩ : ∃ n₀ rest, names = n₀ :: rest := by
      cases names with
      | nil => exact absurd rfl hne
      | cons a l => exact ⟨a, l, rfl⟩
    have h₀ : (dictGet ci n₀).isSome = true := by
      rw [List.all_cons] at hall
      exact (Bool.and_eq_true_iff.mp hall).1
    have hciE : ci.isEmpty = false := by
      cases hc0 : ci with
      | nil => subst hc0; simp [dictGet] at h₀
      | cons p ps => rfl
    obtain ⟨v₀, hv₀⟩ := Option.isSome_iff_exists.mp h₀
    have hinfo : _get_info_from_cache (some c)
        (_generate_cache_key company_id agent.database (some (n₀ :: rest)))
        (some (n₀ :: rest))
        = some ((n₀ :: rest).filterMap
            (fun n => (dictGet ci n).map (fun v => (n, v)))) := by
      simp [_get_info_from_cache, hci, truthyOptList, hciE, hall]
    have hd : (n₀ :: rest).filterMap
        (fun n => (dictGet ci n).map (fun v => (n, v)))
        = (n₀, v₀) :: rest.filterMap
            (fun n => (dictGet ci n).map (fun v => (n, v))) := by
      simp [List.filterMap_cons, hv₀]
    simp only [get_table_info, hinfo]
    rw [if_neg (by rw [hd]; exact List.cons_ne_nil _ _)]
    rw [filterMap_pair_snd]
  · intro hmiss ti hti
    have hE : names.isEmpty = false := by
      cases names with
      | nil => exact absurd rfl hne
      | cons a l => rfl
    have hinfo : _get_info_from_cache (some c)
        (_generate_cache_key company_id agent.database (some names))
        (some names)
        = some [] := by
      cases hg : dictGet c
          (_generate_cache_key company_id agent.database (some names)) with
      | none =>
        simp [_get_info_from_cache, hg, truthyOptList, hE]
      | some ci =>
        obtain ⟨n, hn, hnone⟩ := hmiss ci hg
        have hmem : ¬ (¬ ci = [] ∧ ∀ x ∈ names, (dictGet ci x).isSome = true) := by
          intro hand
          have := hand.2 n hn
          rw [hnone] at this
          simp at this
        simp [_get_info_from_cache, hg, truthyOptList, hE, hmem]
    simp only [get_table_info, hinfo]
    rw [if_pos trivial, hti]
    rfl

/-- Witness for C3: a full hit on the concrete cache holding the computed key,
and a full miss on the empty cache with a fresh fetch stored under that key. -/
theorem c3_witness :
    get_table_info c3agent "1" (fun _ => Except.ok c3fresh) (some c3cacheHit)
        (some ["t"])
      = (String.intercalate "\n\n" (["t"].filterMap (fun n => dictGet c3ci n)),
         some c3cacheHit)
    ∧ get_table_info c3agent "1" (fun _ => Except.ok c3fresh) (some [])
        (some ["t"])
      = (String.intercalate "\n\n" (c3fresh.map (fun p => p.2)),
         some (dictSet [] c3key c3fresh)) :=
  ⟨(c3_cache_hit_all_or_full_refetch c3agent "1" (fun _ => Except.ok c3fresh)
      c3cacheHit ["t"] c3key (by decide) rfl).1 c3ci rfl rfl,
   (c3_cache_hit_all_or_full_refetch c3agent "1" (fun _ => Except.ok c3fresh)
      [] ["t"] c3key (by decide) rfl).2
      (fun ci h => Option.noConfusion h) c3fresh rfl⟩
